import Mathlib

/-
Verification development for the go-ethereum hot state cache package
(core/state/hotcache).  The Go source is shallowly embedded: 32-byte
storage words, slot keys, block hashes and 20-byte addresses are
modelled as natural numbers (values are below 2 ^ 256 resp. 2 ^ 160
wherever the Go types enforce it); Go maps are modelled as association
lists with last-write-wins insertion; fallible Go functions return
Except or pair their result with an Option error; a Go panic (index
out of range) is modelled as the none case of an Option result.
-/

namespace HotCache

/- A 32-byte word (storage slot key or value, block hash). -/
abbrev Word := Nat

/- A 20-byte contract address. -/
abbrev Addr := Nat

/- Go map insertion m[k] = v on an association list: replaces the
binding if the key is present, otherwise appends it.  This keeps keys
unique, so list length agrees with Go map size. -/
def mapInsert {α : Type} (k : Nat) (v : α) : List (Nat × α) → List (Nat × α)
  | [] => [(k, v)]
  | (k', v') :: rest => if k' = k then (k, v) :: rest else (k', v') :: mapInsert k v rest

/- ContractType from cache.go (ContractTypeUnknown, UniswapV2, ...). -/
inductive ContractType where
  | unknown
  | uniswapV2
  | uniswapV3
  | aave
  | curve
deriving Repr, DecidableEq

/- UniswapV2State from uniswap_v2.go.  Reserve0/Reserve1 are uint112
values held in big.Int, BlockTimestampLast is a uint32. -/
structure UniswapV2State where
  token0 : Addr
  token1 : Addr
  reserve0 : Nat
  reserve1 : Nat
  blockTimestampLast : Nat
  price0Cumulative : Nat
  price1Cumulative : Nat
  kLast : Nat
deriving Repr, DecidableEq

/- Standard storage slots for Uniswap V2 (uniswap_v2.go). -/
def uniswapV2SlotToken0 : Word := 6
def uniswapV2SlotToken1 : Word := 7
def uniswapV2SlotReserves : Word := 8
def uniswapV2SlotPrice0Cumulative : Word := 9
def uniswapV2SlotPrice1Cumulative : Word := 10
def uniswapV2SlotKLast : Word := 11

/- common.BytesToAddress of a 32-byte word keeps the low 20 bytes. -/
def bytesToAddress (w : Word) : Addr := w % 2 ^ 160

/- Go uint32 conversion (the shifted value is below 2 ^ 32 whenever
the input word is a 32-byte value, so the truncation is the identity
on reachable inputs). -/
def uint32 (x : Nat) : Nat := x % 2 ^ 32

/- The 112-bit mask built in UniswapV2Decoder.Decode. -/
def mask112 : Nat := 2 ^ 112 - 1

/- RequiredSlots of UniswapV2Decoder. -/
def uniswapV2RequiredSlots : List Word :=
  [uniswapV2SlotToken0, uniswapV2SlotToken1, uniswapV2SlotReserves,
   uniswapV2SlotPrice0Cumulative, uniswapV2SlotPrice1Cumulative, uniswapV2SlotKLast]

/- UniswapV2Decoder.Decode from uniswap_v2.go.  The Go code checks the
slots in the order token0, token1, reserves and returns the first
missing-slot error; the cumulative and kLast slots default to zero.
The Go guard len(bytes) == 32 is always true because common.Hash is a
fixed 32-byte array, so the reserve extraction always runs. -/
def uniswapV2Decode (slots : List (Word × Word)) : Except String UniswapV2State :=
  match List.lookup uniswapV2SlotToken0 slots with
  | none => .error "missing token0 slot"
  | some token0Value =>
    match List.lookup uniswapV2SlotToken1 slots with
    | none => .error "missing token1 slot"
    | some token1Value =>
      match List.lookup uniswapV2SlotReserves slots with
      | none => .error "missing reserves slot"
      | some reservesValue =>
        let fullValue := reservesValue
        let reserve0 := fullValue &&& mask112
        let reserve1 := (fullValue >>> 112) &&& mask112
        let timestampShifted := fullValue >>> 224
        .ok { token0 := bytesToAddress token0Value
              token1 := bytesToAddress token1Value
              reserve0 := reserve0
              reserve1 := reserve1
              blockTimestampLast := uint32 timestampShifted
              price0Cumulative := (List.lookup uniswapV2SlotPrice0Cumulative slots).getD 0
              price1Cumulative := (List.lookup uniswapV2SlotPrice1Cumulative slots).getD 0
              kLast := (List.lookup uniswapV2SlotKLast slots).getD 0 }

/- Decoded contract state: Go keeps ContractState.Decoded as an
untyped interface value; the only concrete decoder in the package
produces a UniswapV2State, and other payloads are abstracted by a tag. -/
inductive DecodedState where
  | v2 : UniswapV2State → DecodedState
  | otherVal : Nat → DecodedState
deriving Repr, DecidableEq

/- ContractDecoder interface from cache.go. -/
structure ContractDecoder where
  type : ContractType
  requiredSlots : List Word
  decode : List (Word × Word) → Except String DecodedState

/- The concrete Uniswap V2 decoder. -/
def uniswapV2Decoder : ContractDecoder where
  type := .uniswapV2
  requiredSlots := uniswapV2RequiredSlots
  decode := fun slots => (uniswapV2Decode slots).map .v2

/- Config from cache.go. -/
structure Config where
  enabled : Bool
  watchlist : List Addr
  shadowMode : Bool
  maxSnapshots : Nat

/- ContractState from cache.go.  LastUpdated is declared in the Go
struct but never written by update.go, so it stays at its zero value. -/
structure ContractState where
  address : Addr
  type : ContractType
  rawSlots : List (Word × Word)
  decoded : Option DecodedState
  lastUpdated : Nat
deriving Repr, DecidableEq

/- Snapshot from cache.go. -/
structure Snapshot where
  blockNumber : Nat
  blockHash : Word
  blockTime : Nat
  contracts : List (Addr × ContractState)
deriving Repr, DecidableEq

/- Statistics counters from cache.go. -/
structure Statistics where
  hits : Nat
  misses : Nat
  updates : Nat
  validationErrors : Nat
  reorgCount : Nat
deriving Repr, DecidableEq

/- Block header: the cache consumes only number, hash, parent hash and
timestamp. -/
structure Header where
  number : Nat
  hash : Word
  parentHash : Word
  time : Nat
deriving Repr, DecidableEq

/- StateReader interface from update.go. -/
def StateReader := Addr → Word → Word

/- Cache from cache.go: current snapshot, history keyed by block hash,
watchlist key set, decoder registry and counters. -/
structure Cache where
  config : Config
  current : Snapshot
  snapshots : List (Word × Snapshot)
  watchlist : List Addr
  decoders : List (Addr × ContractDecoder)
  stats : Statistics

/- New from cache.go (a zero MaxSnapshots is replaced by the default
64; the watchlist map keys are the configured addresses). -/
def Cache.New (config : Config) : Cache :=
  let config := if config.maxSnapshots = 0 then { config with maxSnapshots := 64 } else config
  { config := config
    current := { blockNumber := 0, blockHash := 0, blockTime := 0, contracts := [] }
    snapshots := []
    watchlist := config.watchlist
    decoders := []
    stats := { hits := 0, misses := 0, updates := 0, validationErrors := 0, reorgCount := 0 } }

/- RegisterDecoder from cache.go. -/
def Cache.RegisterDecoder (c : Cache) (addr : Addr) (d : ContractDecoder) : Cache :=
  { c with decoders := mapInsert addr d c.decoders }

/- updateContract from update.go: with no registered decoder the
contract keeps type Unknown, an empty slot map and no decoded record;
with a decoder the required slots are read into the raw slot map and
decoded, and a decode failure is propagated as an error. -/
def Cache.updateContract (c : Cache) (addr : Addr) (reader : StateReader) :
    Except String ContractState :=
  match List.lookup addr c.decoders with
  | none =>
      .ok { address := addr, type := .unknown, rawSlots := [], decoded := none, lastUpdated := 0 }
  | some d =>
      let raw := d.requiredSlots.foldl (fun m slot => mapInsert slot (reader addr slot) m) []
      match d.decode raw with
      | .error e => .error ("failed to decode: " ++ e)
      | .ok dec =>
          .ok { address := addr, type := d.type, rawSlots := raw, decoded := some dec,
                lastUpdated := 0 }

/- Loop body of the watchlist loop in Update: a successful per-contract
refresh is stored in the snapshot's contracts map, a failed one is
logged and skipped. -/
def updateStep (c : Cache) (reader : StateReader)
    (m : List (Addr × ContractState)) (addr : Addr) : List (Addr × ContractState) :=
  match c.updateContract addr reader with
  | .error _ => m
  | .ok st => mapInsert addr st m

/- The contracts map built by Update: one updateContract call per
watched address, skipping addresses whose decode failed. -/
def buildContracts (c : Cache) (reader : StateReader) (wl : List Addr) :
    List (Addr × ContractState) :=
  wl.foldl (updateStep c reader) []

/- cleanupOldSnapshots from update.go: when the history exceeds
MaxSnapshots, drop every snapshot with block number strictly below
currentBlock - MaxSnapshots (clamped at zero). -/
def cleanupOldSnapshots (maxSnapshots : Nat) (currentBlock : Nat)
    (snaps : List (Word × Snapshot)) : List (Word × Snapshot) :=
  if snaps.length ≤ maxSnapshots then snaps
  else
    let cutoff := if maxSnapshots < currentBlock then currentBlock - maxSnapshots else 0
    snaps.filter (fun p => decide (cutoff ≤ p.2.blockNumber))

def bumpUpdates (s : Statistics) : Statistics := { s with updates := s.updates + 1 }

/- Update from update.go.  The returned pair mirrors the mutated
receiver and the Go error result (which is nil on every path). -/
def Cache.Update (c : Cache) (block : Header) (reader : StateReader) :
    Cache × Option String :=
  if c.config.enabled then
    let newSnapshot : Snapshot :=
      { blockNumber := block.number
        blockHash := block.hash
        blockTime := block.time
        contracts := buildContracts c reader c.watchlist }
    let snaps := cleanupOldSnapshots c.config.maxSnapshots block.number
      (mapInsert block.hash newSnapshot c.snapshots)
    ({ c with stats := bumpUpdates c.stats, snapshots := snaps, current := newSnapshot }, none)
  else (c, none)

/- InconsistentState error payload of Validate (address, slot, cached
value and canonical value, as formatted into the Go error). -/
structure InconsistentState where
  address : Addr
  slot : Word
  cached : Word
  canonical : Word
deriving Repr, DecidableEq

/- Scan of one contract's raw slots, returning the first slot whose
cached value differs from the canonical state. -/
def findSlotMismatch (reader : StateReader) (addr : Addr) :
    List (Word × Word) → Option InconsistentState
  | [] => none
  | (slot, cachedValue) :: rest =>
      if cachedValue ≠ reader addr slot then
        some { address := addr, slot := slot, cached := cachedValue,
               canonical := reader addr slot }
      else findSlotMismatch reader addr rest

/- Scan of all cached contracts, returning the first mismatch. -/
def findMismatch (reader : StateReader) :
    List (Addr × ContractState) → Option InconsistentState
  | [] => none
  | (addr, st) :: rest =>
      match findSlotMismatch reader addr st.rawSlots with
      | some e => some e
      | none => findMismatch reader rest

/- Validate from update.go: in shadow mode, compare every cached raw
slot of the current snapshot against the canonical state; on the first
mismatch bump ValidationErrors and return the InconsistentState error. -/
def Cache.Validate (c : Cache) (reader : StateReader) :
    Cache × Option InconsistentState :=
  if c.config.shadowMode then
    match findMismatch reader c.current.contracts with
    | none => (c, none)
    | some e =>
        ({ c with stats := { c.stats with validationErrors := c.stats.validationErrors + 1 } },
         some e)
  else (c, none)

def bumpReorgs (s : Statistics) : Statistics := { s with reorgCount := s.reorgCount + 1 }

/- Common-ancestor scan of HandleReorg: walk the old chain from tip to
root and return the hash of the first old header whose hash also
appears in the new chain; the zero hash means no ancestor was found
(the Go loop only stops early once commonHash is nonzero). -/
def findCommonHashGo (newChain : List Header) : List Header → Word
  | [] => 0
  | h :: rest =>
      if newChain.any (fun n => n.hash == h.hash) then
        if h.hash ≠ 0 then h.hash else findCommonHashGo newChain rest
      else findCommonHashGo newChain rest

def findCommonHash (oldChain newChain : List Header) : Word :=
  findCommonHashGo newChain oldChain.reverse

/- Replay loop of HandleReorg: update for every new-chain header above
the ancestor, stopping early if an Update call reports an error. -/
def replayNewChain (reader : StateReader) (ancestorNumber : Nat) :
    Cache → List Header → Cache × Option String
  | c, [] => (c, none)
  | c, header :: rest =>
      if header.number ≤ ancestorNumber then replayNewChain reader ancestorNumber c rest
      else
        match c.Update header reader with
        | (c', none) => replayNewChain reader ancestorNumber c' rest
        | (c', some e) => (c', some ("failed to replay block: " ++ e))

/- HandleReorg from update.go.  A none result models the Go panic on
newChain[len(newChain)-1] when newChain is empty: the rebuild branch
indexes it directly, and the found-ancestor branch indexes it in the
final log statement after the replay loop. -/
def Cache.HandleReorg (c : Cache) (oldChain newChain : List Header)
    (reader : StateReader) : Option (Cache × Option String) :=
  if c.config.enabled then
    let c1 := { c with stats := bumpReorgs c.stats }
    let commonHash := findCommonHash oldChain newChain
    match List.lookup commonHash c1.snapshots with
    | none =>
        match newChain.getLast? with
        | none => none
        | some tip => some (c1.Update tip reader)
    | some commonSnapshot =>
        let c2 := { c1 with current := commonSnapshot }
        match replayNewChain reader commonSnapshot.blockNumber c2 newChain with
        | (c3, some e) => some (c3, some e)
        | (c3, none) =>
            match newChain.getLast? with
            | none => none
            | some _ => some (c3, none)
  else some (c, none)

/- Mismatch predicate characterising the validator: some cached slot
entry of the current snapshot differs from the canonical state. -/
def HasMismatch (reader : StateReader) (s : Snapshot) : Prop :=
  ∃ p ∈ s.contracts, ∃ q ∈ p.2.rawSlots, q.2 ≠ reader p.1 q.1

/- An all-zero state reader, used by the concrete scenarios (a reader
that cannot read returns zero). -/
def reader0 : StateReader := fun _ _ => 0

/- Header constructor for scenarios that do not need parent links. -/
def mkHeader (n h : Nat) : Header :=
  { number := n, hash := h, parentHash := 0, time := 0 }

/- Concrete slot map and decoded record used by the C4 witness: slots
6, 7 and 8 present, slots 9, 10 and 11 absent. -/
def c4SlotsOk : List (Word × Word) := [(6, 0), (7, 0), (8, 0)]

def c4StateOk : UniswapV2State :=
  { token0 := 0, token1 := 0, reserve0 := 0, reserve1 := 0, blockTimestampLast := 0,
    price0Cumulative := 0, price1Cumulative := 0, kLast := 0 }

/- Retention scenario of C1: MaxSnapshots = 2, updates for the blocks
numbered 1, 2, 3, 4 with hashes 101, 102, 103, 104. -/
def retCache0 : Cache :=
  Cache.New { enabled := true, watchlist := [], shadowMode := false, maxSnapshots := 2 }

def retCacheAfter : Cache :=
  ((((retCache0.Update (mkHeader 1 101) reader0).1.Update (mkHeader 2 102) reader0).1.Update
      (mkHeader 3 103) reader0).1.Update (mkHeader 4 104) reader0).1

/- Reorg scenario of C2: blocks H1(parent H0), H2a(parent H1),
H3a(parent H2a) are ingested, then a reorg to H2b(parent H1),
H3b(parent H2b) is declared. -/
def reorgH1 : Header := { number := 1, hash := 101, parentHash := 100, time := 0 }

def reorgH2a : Header := { number := 2, hash := 102, parentHash := 101, time := 0 }

def reorgH3a : Header := { number := 3, hash := 103, parentHash := 102, time := 0 }

def reorgH2b : Header := { number := 2, hash := 112, parentHash := 101, time := 0 }

def reorgH3b : Header := { number := 3, hash := 113, parentHash := 112, time := 0 }

def reorgCache0 : Cache :=
  Cache.New { enabled := true, watchlist := [], shadowMode := false, maxSnapshots := 64 }

def reorgCacheSetup : Cache :=
  (((reorgCache0.Update reorgH1 reader0).1.Update reorgH2a reader0).1.Update
    reorgH3a reader0).1

def reorgResult : Option (Cache × Option String) :=
  reorgCacheSetup.HandleReorg [reorgH2a, reorgH3a] [reorgH2b, reorgH3b] reader0

def reorgFinal : Cache :=
  match reorgResult with
  | some (c, _) => c
  | none => reorgCache0

/- A decoder whose Decode always fails, for the C6 witness. -/
def failDecoder : ContractDecoder :=
  { type := .uniswapV2, requiredSlots := [uniswapV2SlotToken0],
    decode := fun _ => .error "decode failure" }

def c6Cache : Cache :=
  Cache.RegisterDecoder
    (Cache.New
      { enabled := true, watchlist := [1, 2], shadowMode := false, maxSnapshots := 64 })
    2 failDecoder

/- Enabled cache with empty history, for the C7, C9 and C10 witnesses. -/
def c7Cache : Cache :=
  Cache.New { enabled := true, watchlist := [], shadowMode := false, maxSnapshots := 2 }

def c7Tip : Header := mkHeader 1 101

def c9Final : Cache :=
  match c7Cache.HandleReorg [] [c7Tip] reader0 with
  | some (c, _) => c
  | none => c7Cache

/- Caches used by the C8 witness: shadow mode off and on. -/
def v8CacheOff : Cache :=
  Cache.New { enabled := true, watchlist := [], shadowMode := false, maxSnapshots := 64 }

def v8CacheOn : Cache :=
  Cache.New { enabled := true, watchlist := [], shadowMode := true, maxSnapshots := 64 }

theorem lookup_mapInsert_self {α : Type} (k : Nat) (v : α) (m : List (Nat × α)) :
    List.lookup k (mapInsert k v m) = some v := by
  induction m with
  | nil => simp [mapInsert, List.lookup_cons]
  | cons p rest ih =>
      rcases p with ⟨a, b⟩
      rcases eq_or_ne a k with h | h
      · subst h
        simp [mapInsert, List.lookup_cons]
      · simp [mapInsert, h, List.lookup_cons, beq_false_of_ne (Ne.symm h), ih]

theorem lookup_mapInsert_ne {α : Type} {k k' : Nat} (v : α) (m : List (Nat × α))
    (h : k' ≠ k) : List.lookup k' (mapInsert k v m) = List.lookup k' m := by
  induction m with
  | nil => simp [mapInsert, List.lookup_cons, beq_false_of_ne h]
  | cons p rest ih =>
      rcases p with ⟨a, b⟩
      rcases eq_or_ne a k with ha | ha
      · subst ha
        simp [mapInsert, List.lookup_cons, beq_false_of_ne h]
      · simp [mapInsert, ha, List.lookup_cons, ih]

theorem lookup_foldl_updateStep_not_mem (c : Cache) (reader : StateReader) (addr : Addr) :
    ∀ (wl : List Addr) (acc : List (Addr × ContractState)), addr ∉ wl →
      List.lookup addr (wl.foldl (updateStep c reader) acc) = List.lookup addr acc
  | [], _, _ => rfl
  | a :: rest, acc, h => by
      have hrest : addr ∉ rest := fun hm => h (List.mem_cons_of_mem _ hm)
      have hne : addr ≠ a := fun he => h (by rw [he]; exact List.mem_cons_self a rest)
      rw [List.foldl_cons, lookup_foldl_updateStep_not_mem c reader addr rest _ hrest]
      unfold updateStep
      rcases hu : c.updateContract a reader with e | st
      · simp only [hu]
      · simp only [hu]
        exact lookup_mapInsert_ne st acc hne

theorem lookup_foldl_updateStep_ok (c : Cache) (reader : StateReader) (addr : Addr)
    (st : ContractState) (hok : c.updateContract addr reader = .ok st) :
    ∀ (wl : List Addr) (acc : List (Addr × ContractState)), addr ∈ wl →
      List.lookup addr (wl.foldl (updateStep c reader) acc) = some st
  | [], _, hmem => absurd hmem (List.not_mem_nil addr)
  | a :: rest, acc, hmem => by
      rw [List.foldl_cons]
      by_cases hr : addr ∈ rest
      · exact lookup_foldl_updateStep_ok c reader addr st hok rest _ hr
      · have ha : a = addr := by
          rcases List.mem_cons.mp hmem with h | h
          · exact h.symm
          · exact absurd h hr
        rw [lookup_foldl_updateStep_not_mem c reader addr rest _ hr, ha]
        unfold updateStep
        simp only [hok]
        exact lookup_mapInsert_self addr st acc

theorem lookup_foldl_updateStep_err (c : Cache) (reader : StateReader) (addr : Addr)
    (e : String) (herr : c.updateContract addr reader = .error e) :
    ∀ (wl : List Addr) (acc : List (Addr × ContractState)),
      List.lookup addr acc = none →
      List.lookup addr (wl.foldl (updateStep c reader) acc) = none
  | [], _, hacc => hacc
  | a :: rest, acc, hacc => by
      rw [List.foldl_cons]
      refine lookup_foldl_updateStep_err c reader addr e herr rest _ ?_
      unfold updateStep
      rcases hu : c.updateContract a reader with e' | st'
      · simp only [hu]
        exact hacc
      · have hne : addr ≠ a := by
          intro hEq
          rw [hEq, hu] at herr
          exact Except.noConfusion herr
        simp only [hu]
        rw [lookup_mapInsert_ne st' acc hne]
        exact hacc

theorem update_snd_eq_none (c : Cache) (b : Header) (r : StateReader) :
    (c.Update b r).2 = none := by
  by_cases h : c.config.enabled <;> simp [Cache.Update, h]

theorem update_fst_current (c : Cache) (b : Header) (r : StateReader)
    (h : c.config.enabled = true) :
    (c.Update b r).1.current =
      { blockNumber := b.number, blockHash := b.hash, blockTime := b.time,
        contracts := buildContracts c r c.watchlist } := by
  simp [Cache.Update, h]

theorem update_reorgCount (c : Cache) (b : Header) (r : StateReader) :
    (c.Update b r).1.stats.reorgCount = c.stats.reorgCount := by
  by_cases h : c.config.enabled <;> simp [Cache.Update, h, bumpUpdates]

theorem replay_snd_eq_none (r : StateReader) (n : Nat) :
    ∀ (c : Cache) (l : List Header), (replayNewChain r n c l).2 = none
  | _, [] => rfl
  | c, h :: rest => by
      unfold replayNewChain
      by_cases hle : h.number ≤ n
      · simp only [if_pos hle]
        exact replay_snd_eq_none r n c rest
      · simp only [if_neg hle]
        rcases hu : c.Update h r with ⟨c', e⟩
        have he : e = none := by
          have hx := update_snd_eq_none c h r
          rw [hu] at hx
          exact hx
        subst he
        simp only [hu]
        exact replay_snd_eq_none r n c' rest

theorem replay_reorgCount (r : StateReader) (n : Nat) :
    ∀ (c : Cache) (l : List Header),
      (replayNewChain r n c l).1.stats.reorgCount = c.stats.reorgCount
  | _, [] => rfl
  | c, h :: rest => by
      unfold replayNewChain
      by_cases hle : h.number ≤ n
      · simp only [if_pos hle]
        exact replay_reorgCount r n c rest
      · simp only [if_neg hle]
        rcases hu : c.Update h r with ⟨c', e⟩
        have he : e = none := by
          have hx := update_snd_eq_none c h r
          rw [hu] at hx
          exact hx
        subst he
        simp only [hu]
        rw [replay_reorgCount r n c' rest]
        have hc : c' = (c.Update h r).1 := by rw [hu]
        rw [hc, update_reorgCount]

theorem findCommonHashGo_nil : ∀ l : List Header, findCommonHashGo [] l = 0
  | [] => rfl
  | _ :: rest => by simp [findCommonHashGo, findCommonHashGo_nil rest]

theorem handleReorg_some_spec (c : Cache) (oldChain newChain : List Header)
    (r : StateReader) (cr : Cache) (err : Option String)
    (hen : c.config.enabled = true)
    (h : c.HandleReorg oldChain newChain r = some (cr, err)) :
    err = none ∧ cr.stats.reorgCount = c.stats.reorgCount + 1 := by
  unfold Cache.HandleReorg at h
  simp only [hen, if_true] at h
  rcases hl : List.lookup (findCommonHash oldChain newChain) c.snapshots with _ | snap
  · simp only [hl] at h
    rcases hg : newChain.getLast? with _ | tip
    · simp only [hg] at h
      exact Option.noConfusion h
    · simp only [hg] at h
      rcases hu : Cache.Update { c with stats := bumpReorgs c.stats } tip r with ⟨c', e'⟩
      rw [hu] at h
      injection h with h'
      injection h' with h1 h2
      subst h1
      subst h2
      have he : e' = none := by
        have hx := update_snd_eq_none { c with stats := bumpReorgs c.stats } tip r
        rw [hu] at hx
        exact hx
      have hcnt : c'.stats.reorgCount = c.stats.reorgCount + 1 := by
        have hc : c' = (Cache.Update { c with stats := bumpReorgs c.stats } tip r).1 := by
          rw [hu]
        rw [hc, update_reorgCount]
        simp [bumpReorgs]
      exact ⟨he.symm ▸ rfl, hcnt⟩
  · simp only [hl] at h
    rcases hr : replayNewChain r snap.blockNumber
        { c with stats := bumpReorgs c.stats, current := snap } newChain with ⟨c3, e3⟩
    have he3 : e3 = none := by
      have hx := replay_snd_eq_none r snap.blockNumber
        { c with stats := bumpReorgs c.stats, current := snap } newChain
      rw [hr] at hx
      exact hx
    subst he3
    simp only [hr] at h
    rcases hg : newChain.getLast? with _ | tip
    · simp only [hg] at h
      exact Option.noConfusion h
    · simp only [hg] at h
      injection h with h'
      injection h' with h1 h2
      subst h1
      subst h2
      have hcnt : c3.stats.reorgCount = c.stats.reorgCount + 1 := by
        have hc : c3 = (replayNewChain r snap.blockNumber
            { c with stats := bumpReorgs c.stats, current := snap } newChain).1 := by
          rw [hr]
        rw [hc, replay_reorgCount]
        simp [bumpReorgs]
      exact ⟨rfl, hcnt⟩

theorem findSlotMismatch_eq_none_iff (r : StateReader) (addr : Addr) :
    ∀ l : List (Word × Word),
      findSlotMismatch r addr l = none ↔ ∀ q ∈ l, q.2 = r addr q.1
  | [] => by simp [findSlotMismatch]
  | (slot, v) :: rest => by
      unfold findSlotMismatch
      by_cases hv : v = r addr slot
      · rw [if_neg (by simp [hv])]
        rw [findSlotMismatch_eq_none_iff r addr rest]
        constructor
        · intro h q hq
          rcases List.mem_cons.mp hq with rfl | hq'
          · exact hv
          · exact h q hq'
        · intro h q hq
          exact h q (List.mem_cons_of_mem _ hq)
      · rw [if_pos hv]
        constructor
        · intro h
          exact Option.noConfusion h
        · intro h
          exact absurd (h (slot, v) (List.mem_cons_self _ _)) hv

theorem findSlotMismatch_some (r : StateReader) (addr : Addr) :
    ∀ (l : List (Word × Word)) (e : InconsistentState),
      findSlotMismatch r addr l = some e →
      e.address = addr ∧ (e.slot, e.cached) ∈ l ∧
        e.canonical = r addr e.slot ∧ e.cached ≠ e.canonical
  | [], _, h => Option.noConfusion h
  | (slot, v) :: rest, e, h => by
      unfold findSlotMismatch at h
      by_cases hv : v ≠ r addr slot
      · rw [if_pos hv] at h
        injection h with h'
        subst h'
        exact ⟨rfl, List.mem_cons_self _ _, rfl, hv⟩
      · rw [if_neg hv] at h
        obtain ⟨h1, h2, h3, h4⟩ := findSlotMismatch_some r addr rest e h
        exact ⟨h1, List.mem_cons_of_mem _ h2, h3, h4⟩

theorem findMismatch_eq_none_iff (r : StateReader) :
    ∀ l : List (Addr × ContractState),
      findMismatch r l = none ↔ ∀ p ∈ l, ∀ q ∈ p.2.rawSlots, q.2 = r p.1 q.1
  | [] => by simp [findMismatch]
  | (addr, st) :: rest => by
      unfold findMismatch
      rcases hm : findSlotMismatch r addr st.rawSlots with _ | e0
      · simp only [hm]
        rw [findMismatch_eq_none_iff r rest]
        have hslots := (findSlotMismatch_eq_none_iff r addr st.rawSlots).mp hm
        constructor
        · intro h p hp
          rcases List.mem_cons.mp hp with rfl | hp'
          · exact fun q hq => hslots q hq
          · exact h p hp'
        · intro h p hp
          exact h p (List.mem_cons_of_mem _ hp)
      · simp only [hm]
        constructor
        · intro h
          exact Option.noConfusion h
        · intro h
          have hnone : findSlotMismatch r addr st.rawSlots = none := by
            rw [findSlotMismatch_eq_none_iff]
            intro q hq
            exact h (addr, st) (List.mem_cons_self _ _) q hq
          rw [hnone] at hm
          exact Option.noConfusion hm

theorem findMismatch_some (r : StateReader) :
    ∀ (l : List (Addr × ContractState)) (e : InconsistentState),
      findMismatch r l = some e →
      ∃ st, (e.address, st) ∈ l ∧ (e.slot, e.cached) ∈ st.rawSlots ∧
        e.canonical = r e.address e.slot ∧ e.cached ≠ e.canonical
  | [], _, h => Option.noConfusion h
  | (addr, st) :: rest, e, h => by
      unfold findMismatch at h
      rcases hm : findSlotMismatch r addr st.rawSlots with _ | e0
      · simp only [hm] at h
        obtain ⟨st', h1, h2, h3, h4⟩ := findMismatch_some r rest e h
        exact ⟨st', List.mem_cons_of_mem _ h1, h2, h3, h4⟩
      · simp only [hm] at h
        injection h with h'
        subst h'
        obtain ⟨h1, h2, h3, h4⟩ := findSlotMismatch_some r addr st.rawSlots e0 hm
        refine ⟨st, ?_, h2, ?_, h4⟩
        · rw [h1]
          exact List.mem_cons_self _ _
        · rw [h1]
          exact h3

/-- C3: Slot-8 bit extraction.  For all reserve0, reserve1 below 2 ^ 112 and
ts below 2 ^ 32, if the input slot map contains slots 6 and 7 and maps slot 8
to the 256-bit word reserve0 + reserve1 * 2 ^ 112 + ts * 2 ^ 224, then
UniswapV2Decoder.Decode succeeds and the resulting state has Reserve0 =
reserve0, Reserve1 = reserve1 and BlockTimestampLast = ts, so packing followed
by extraction recovers the fields exactly. -/
theorem uniswapV2_decode_unpacks_packed_word
    (slots : List (Word × Word)) (t0 t1 r0 r1 ts : Nat)
    (h6 : List.lookup uniswapV2SlotToken0 slots = some t0)
    (h7 : List.lookup uniswapV2SlotToken1 slots = some t1)
    (h8 : List.lookup uniswapV2SlotReserves slots = some (r0 + r1 * 2 ^ 112 + ts * 2 ^ 224))
    (hr0 : r0 < 2 ^ 112) (hr1 : r1 < 2 ^ 112) (hts : ts < 2 ^ 32) :
    uniswapV2Decode slots = Except.ok
      { token0 := bytesToAddress t0
        token1 := bytesToAddress t1
        reserve0 := r0
        reserve1 := r1
        blockTimestampLast := ts
        price0Cumulative := (List.lookup uniswapV2SlotPrice0Cumulative slots).getD 0
        price1Cumulative := (List.lookup uniswapV2SlotPrice1Cumulative slots).getD 0
        kLast := (List.lookup uniswapV2SlotKLast slots).getD 0 } := by
  have e0 : (r0 + r1 * 2 ^ 112 + ts * 2 ^ 224) &&& mask112 = r0 := by
    simp only [mask112, Nat.and_pow_two_sub_one_eq_mod]
    omega
  have e1 : ((r0 + r1 * 2 ^ 112 + ts * 2 ^ 224) >>> 112) &&& mask112 = r1 := by
    simp only [mask112, Nat.shiftRight_eq_div_pow, Nat.and_pow_two_sub_one_eq_mod]
    omega
  have e2 : uint32 ((r0 + r1 * 2 ^ 112 + ts * 2 ^ 224) >>> 224) = ts := by
    simp only [uint32, Nat.shiftRight_eq_div_pow]
    omega
  simp only [uniswapV2Decode, h6, h7, h8, e0, e1, e2]

/-- Witness for C3 at the boundary values reserve0 = reserve1 = 2 ^ 112 - 1
and ts = 2 ^ 32 - 1. -/
theorem uniswapV2_decode_unpacks_packed_word_witness :
    (2 ^ 112 - 1 < 2 ^ 112 ∧ 2 ^ 32 - 1 < 2 ^ 32) ∧
    uniswapV2Decode
        [(6, 3), (7, 4),
         (8, (2 ^ 112 - 1) + (2 ^ 112 - 1) * 2 ^ 112 + (2 ^ 32 - 1) * 2 ^ 224)] =
      Except.ok
        { token0 := bytesToAddress 3
          token1 := bytesToAddress 4
          reserve0 := 2 ^ 112 - 1
          reserve1 := 2 ^ 112 - 1
          blockTimestampLast := 2 ^ 32 - 1
          price0Cumulative := 0
          price1Cumulative := 0
          kLast := 0 } :=
  ⟨⟨by decide, by decide⟩,
   uniswapV2_decode_unpacks_packed_word
     [(6, 3), (7, 4),
      (8, (2 ^ 112 - 1) + (2 ^ 112 - 1) * 2 ^ 112 + (2 ^ 32 - 1) * 2 ^ 224)]
     3 4 (2 ^ 112 - 1) (2 ^ 112 - 1) (2 ^ 32 - 1)
     (by decide) (by decide) (by decide) (by decide) (by decide) (by decide)⟩

/-- C4: Decode error conditions.  UniswapV2Decoder.Decode returns an error
if and only if slot 6 (token0), slot 7 (token1) or slot 8 (reserves) is
absent from the input map, with a message naming the missing field; when
slots 9, 10 or 11 are absent it succeeds and the corresponding
Price0Cumulative, Price1Cumulative or KLast field is zero. -/
theorem uniswapV2_decode_error_conditions (slots : List (Word × Word)) :
    ((∃ e, uniswapV2Decode slots = Except.error e) ↔
      (List.lookup uniswapV2SlotToken0 slots = none ∨
       List.lookup uniswapV2SlotToken1 slots = none ∨
       List.lookup uniswapV2SlotReserves slots = none))
    ∧ (List.lookup uniswapV2SlotToken0 slots = none →
        uniswapV2Decode slots = Except.error "missing token0 slot")
    ∧ (List.lookup uniswapV2SlotToken0 slots ≠ none →
        List.lookup uniswapV2SlotToken1 slots = none →
        uniswapV2Decode slots = Except.error "missing token1 slot")
    ∧ (List.lookup uniswapV2SlotToken0 slots ≠ none →
        List.lookup uniswapV2SlotToken1 slots ≠ none →
        List.lookup uniswapV2SlotReserves slots = none →
        uniswapV2Decode slots = Except.error "missing reserves slot")
    ∧ (∀ st, uniswapV2Decode slots = Except.ok st →
        (List.lookup uniswapV2SlotPrice0Cumulative slots = none → st.price0Cumulative = 0)
        ∧ (List.lookup uniswapV2SlotPrice1Cumulative slots = none → st.price1Cumulative = 0)
        ∧ (List.lookup uniswapV2SlotKLast slots = none → st.kLast = 0)) := by
  rcases h6 : List.lookup uniswapV2SlotToken0 slots with _ | t0
  · simp [uniswapV2Decode, h6]
  rcases h7 : List.lookup uniswapV2SlotToken1 slots with _ | t1
  · simp [uniswapV2Decode, h6, h7]
  rcases h8 : List.lookup uniswapV2SlotReserves slots with _ | rv
  · simp [uniswapV2Decode, h6, h7, h8]
  refine ⟨?_, ?_, ?_, ?_, ?_⟩
  · simp [uniswapV2Decode, h6, h7, h8]
  · intro h
    exact Option.noConfusion h
  · intro _ h
    exact Option.noConfusion h
  · intro _ _ h
    exact Option.noConfusion h
  · intro st hst
    simp only [uniswapV2Decode, h6, h7, h8, Except.ok.injEq] at hst
    subst hst
    refine ⟨fun h9 => ?_, fun h10 => ?_, fun h11 => ?_⟩
    · simp [h9]
    · simp [h10]
    · simp [h11]

/-- Witness for C4: the missing-token0 error on the empty map, and the
zero default for slot 9 on a map missing the cumulative slots. -/
theorem uniswapV2_decode_error_conditions_witness :
    uniswapV2Decode [] = Except.error "missing token0 slot" ∧
    c4StateOk.price0Cumulative = 0 ∧ c4StateOk.price1Cumulative = 0 ∧
    c4StateOk.kLast = 0 :=
  ⟨(uniswapV2_decode_error_conditions []).2.1 rfl,
   ((uniswapV2_decode_error_conditions c4SlotsOk).2.2.2.2 c4StateOk (by rfl)).1 rfl,
   ((uniswapV2_decode_error_conditions c4SlotsOk).2.2.2.2 c4StateOk (by rfl)).2.1 rfl,
   ((uniswapV2_decode_error_conditions c4SlotsOk).2.2.2.2 c4StateOk (by rfl)).2.2 rfl⟩


/-- C6: Per-address update outcome.  In the snapshot published by Update on
an enabled cache, every watchlist address with no registered decoder is
present and maps to a ContractState with type Unknown, an empty raw slot map
and no decoded record, while every watchlist address whose registered
decoder's Decode returns an error is absent from the snapshot; the update
still completes (nil error) and publishes the new snapshot. -/
theorem update_per_address_outcome (c : Cache) (block : Header) (reader : StateReader)
    (addr : Addr) (hen : c.config.enabled = true) (hmem : addr ∈ c.watchlist) :
    ((c.Update block reader).2 = none)
    ∧ ((c.Update block reader).1.current.blockHash = block.hash)
    ∧ (List.lookup addr c.decoders = none →
        List.lookup addr ((c.Update block reader).1.current.contracts) =
          some { address := addr, type := ContractType.unknown, rawSlots := [],
                 decoded := none, lastUpdated := 0 })
    ∧ (∀ d e, List.lookup addr c.decoders = some d →
        d.decode (d.requiredSlots.foldl (fun m slot => mapInsert slot (reader addr slot) m) [])
          = Except.error e →
        List.lookup addr ((c.Update block reader).1.current.contracts) = none) := by
  have hcur := update_fst_current c block reader hen
  refine ⟨update_snd_eq_none c block reader, by rw [hcur], ?_, ?_⟩
  · intro hd
    rw [hcur]
    have hok : c.updateContract addr reader = Except.ok
        { address := addr, type := ContractType.unknown, rawSlots := [],
          decoded := none, lastUpdated := 0 } := by
      unfold Cache.updateContract
      rw [hd]
    exact lookup_foldl_updateStep_ok c reader addr _ hok c.watchlist [] hmem
  · intro d e hd herr
    rw [hcur]
    have herr2 : c.updateContract addr reader =
        Except.error ("failed to decode: " ++ e) := by
      unfold Cache.updateContract
      rw [hd]
      simp only [herr]
    exact lookup_foldl_updateStep_err c reader addr _ herr2 c.watchlist [] rfl

/-- Witness for C6 on a concrete cache watching addresses 1 (no decoder)
and 2 (a decoder whose Decode always fails). -/
theorem update_per_address_outcome_witness :
    List.lookup 1 ((c6Cache.Update (mkHeader 9 109) reader0).1.current.contracts) =
      some { address := 1, type := ContractType.unknown, rawSlots := [],
             decoded := none, lastUpdated := 0 } ∧
    List.lookup 2 ((c6Cache.Update (mkHeader 9 109) reader0).1.current.contracts) = none :=
  ⟨(update_per_address_outcome c6Cache (mkHeader 9 109) reader0 1 rfl
      (by decide)).2.2.1 rfl,
   (update_per_address_outcome c6Cache (mkHeader 9 109) reader0 2 rfl
      (by decide)).2.2.2 failDecoder "decode failure" rfl rfl⟩

/-- C7: Reorg with missing ancestor.  On an enabled cache, whenever the
computed common-ancestor hash is not a key of the history map, HandleReorg
rebuilds by calling Update with the last header of the new chain, so the
current snapshot becomes that header's snapshot; and on an enabled cache the
reorgs counter is incremented exactly once per HandleReorg call that returns,
whether or not the ancestor was found. -/
theorem handleReorg_missing_ancestor_rebuilds
    (c : Cache) (oldChain newChain : List Header) (r : StateReader) (tip : Header)
    (hen : c.config.enabled = true)
    (hmiss : List.lookup (findCommonHash oldChain newChain) c.snapshots = none)
    (hlast : newChain.getLast? = some tip) :
    (c.HandleReorg oldChain newChain r =
      some (Cache.Update { c with stats := bumpReorgs c.stats } tip r))
    ∧ ((Cache.Update { c with stats := bumpReorgs c.stats } tip r).1.current.blockHash
        = tip.hash)
    ∧ ((Cache.Update { c with stats := bumpReorgs c.stats } tip r).1.current.blockNumber
        = tip.number)
    ∧ ((Cache.Update { c with stats := bumpReorgs c.stats } tip r).1.stats.reorgCount
        = c.stats.reorgCount + 1)
    ∧ (∀ (c2 : Cache) (o2 n2 : List Header) (r2 : StateReader) (cr : Cache)
        (err : Option String), c2.config.enabled = true →
        c2.HandleReorg o2 n2 r2 = some (cr, err) →
        cr.stats.reorgCount = c2.stats.reorgCount + 1) := by
  have hbump : ({ c with stats := bumpReorgs c.stats } : Cache).config.enabled = true := hen
  refine ⟨?_, ?_, ?_, ?_, ?_⟩
  · unfold Cache.HandleReorg
    simp only [hen, if_true, hmiss, hlast]
  · rw [update_fst_current _ tip r hbump]
  · rw [update_fst_current _ tip r hbump]
  · rw [update_reorgCount]
    simp [bumpReorgs]
  · intro c2 o2 n2 r2 cr err hen2 h
    exact (handleReorg_some_spec c2 o2 n2 r2 cr err hen2 h).2

/-- Witness for C7: an enabled cache with empty history, an empty old chain
and a one-header new chain. -/
theorem handleReorg_missing_ancestor_rebuilds_witness :
    c7Cache.HandleReorg [] [c7Tip] reader0 =
      some (Cache.Update { c7Cache with stats := bumpReorgs c7Cache.stats } c7Tip reader0) :=
  (handleReorg_missing_ancestor_rebuilds c7Cache [] [c7Tip] reader0 c7Tip
    rfl rfl rfl).1

/-- C8: Validator.  When shadow mode is off, Validate returns success and
changes nothing.  When shadow mode is on, Validate succeeds if and only if no
cached (address, slot, value) triple of the current snapshot differs from the
canonical state; on success the cache is unchanged, and on a mismatch the
returned InconsistentState carries an actual mismatching address, slot,
cached value and canonical value, the validation-errors counter is
incremented by exactly one, and no other cache state changes. -/
theorem validate_shadow_mode_spec (c : Cache) (r : StateReader) :
    (c.config.shadowMode = false → c.Validate r = (c, none))
    ∧ (c.config.shadowMode = true →
        (((c.Validate r).2 = none) ↔ ¬ HasMismatch r c.current)
        ∧ ((c.Validate r).2 = none → (c.Validate r).1 = c)
        ∧ (∀ e, (c.Validate r).2 = some e →
            (∃ st, (e.address, st) ∈ c.current.contracts ∧
              (e.slot, e.cached) ∈ st.rawSlots) ∧
            e.canonical = r e.address e.slot ∧
            e.cached ≠ e.canonical ∧
            (c.Validate r).1.stats.validationErrors = c.stats.validationErrors + 1 ∧
            (c.Validate r).1.current = c.current ∧
            (c.Validate r).1.snapshots = c.snapshots ∧
            (c.Validate r).1.config = c.config)) := by
  constructor
  · intro h
    simp [Cache.Validate, h]
  · intro h
    rcases hm : findMismatch r c.current.contracts with _ | e0
    · have hv : c.Validate r = (c, none) := by
        simp [Cache.Validate, h, hm]
      rw [hv]
      have hnm : ¬ HasMismatch r c.current := by
        intro hx
        obtain ⟨p, hp, q, hq, hne⟩ := hx
        exact hne ((findMismatch_eq_none_iff r c.current.contracts).mp hm p hp q hq)
      exact ⟨by simpa using hnm, fun _ => rfl, fun e he => by simp at he⟩
    · have hv : c.Validate r =
          ({ c with stats :=
              { c.stats with validationErrors := c.stats.validationErrors + 1 } },
           some e0) := by
        simp [Cache.Validate, h, hm]
      rw [hv]
      obtain ⟨st, h1, h2, h3, h4⟩ := findMismatch_some r c.current.contracts e0 hm
      refine ⟨?_, fun hnone => by simp at hnone, ?_⟩
      · constructor
        · intro hx
          exact absurd hx (by simp)
        · intro hx
          exact absurd ⟨(e0.address, st), h1, (e0.slot, e0.cached), h2,
            fun hc => h4 (hc.trans h3.symm)⟩ hx
      · intro e he
        have he0 : e = e0 := by
          injection he with he'
          exact he'.symm
        subst he0
        exact ⟨⟨st, h1, h2⟩, h3, h4, rfl, rfl, rfl, rfl⟩

/-- Witness for C8: shadow mode off returns the cache unchanged with no
error, and shadow mode on with an empty snapshot succeeds without mutating
the cache. -/
theorem validate_shadow_mode_spec_witness :
    v8CacheOff.Validate reader0 = (v8CacheOff, none) ∧
    (v8CacheOn.Validate reader0).1 = v8CacheOn :=
  ⟨(validate_shadow_mode_spec v8CacheOff reader0).1 rfl,
   ((validate_shadow_mode_spec v8CacheOn reader0).2 rfl).2.1 rfl⟩

/-- C9: Update returns a nil error for every header and every state reader,
whether the cache is enabled or disabled, so the replay loop inside
HandleReorg can never stop early by propagating an Update error, and every
HandleReorg call that returns reports a nil error. -/
theorem update_never_errors :
    (∀ (c : Cache) (b : Header) (r : StateReader), (c.Update b r).2 = none)
    ∧ (∀ (r : StateReader) (n : Nat) (c : Cache) (l : List Header),
        (replayNewChain r n c l).2 = none)
    ∧ (∀ (c : Cache) (oldChain newChain : List Header) (r : StateReader)
        (cr : Cache) (err : Option String),
        c.HandleReorg oldChain newChain r = some (cr, err) → err = none) := by
  refine ⟨update_snd_eq_none, fun r n c l => replay_snd_eq_none r n c l, ?_⟩
  intro c oldChain newChain r cr err h
  by_cases hen : c.config.enabled
  · exact (handleReorg_some_spec c oldChain newChain r cr err hen h).1
  · unfold Cache.HandleReorg at h
    simp only [hen, if_false, Bool.false_eq_true] at h
    injection h with h'
    injection h' with h1 h2
    exact h2.symm

/-- Witness for C9 at concrete inputs: a concrete Update call, a concrete
replay call and a concrete HandleReorg call. -/
theorem update_never_errors_witness :
    (retCache0.Update (mkHeader 1 101) reader0).2 = none ∧
    (replayNewChain reader0 0 retCache0 [mkHeader 1 101]).2 = none ∧
    (none : Option String) = none :=
  ⟨update_never_errors.1 retCache0 (mkHeader 1 101) reader0,
   update_never_errors.2.1 reader0 0 retCache0 [mkHeader 1 101],
   update_never_errors.2.2 c7Cache [] [c7Tip] reader0 c9Final none rfl⟩

/-- C10: HandleReorg on an enabled cache whose history has no snapshot keyed
by the all-zero hash, called with an empty new chain, reaches the rebuild
branch and indexes new_chain at length - 1, which is out of bounds: the call
panics (modelled as the none result) instead of returning an error, so a
non-empty new chain is an unstated precondition of HandleReorg. -/
theorem handleReorg_empty_new_chain_panics (c : Cache) (oldChain : List Header)
    (r : StateReader) (hen : c.config.enabled = true)
    (hzero : List.lookup 0 c.snapshots = none) :
    c.HandleReorg oldChain [] r = none := by
  have hfc : findCommonHash oldChain [] = 0 := findCommonHashGo_nil oldChain.reverse
  unfold Cache.HandleReorg
  simp only [hen, if_true, hfc, hzero, List.getLast?_nil]

/-- Witness for C10: an enabled cache with empty history and a nonempty old
chain. -/
theorem handleReorg_empty_new_chain_panics_witness :
    c7Cache.HandleReorg [mkHeader 1 101] [] reader0 = none :=
  handleReorg_empty_new_chain_panics c7Cache [mkHeader 1 101] reader0 rfl rfl

/-- C1 counterexample: with MaxSnapshots = 2, after Update for blocks 1, 2,
3, 4 (hashes 101..104) on an enabled cache, the history holds three
snapshots, which exceeds MaxSnapshots, and block 2's snapshot is still
reachable, so the history is not exactly the pair for blocks 3 and 4. -/
theorem retention_exceeds_max_after_four_updates :
    retCacheAfter.config.enabled = true ∧
    retCacheAfter.config.maxSnapshots = 2 ∧
    retCacheAfter.snapshots.length = 3 ∧
    ¬ retCacheAfter.snapshots.length ≤ retCacheAfter.config.maxSnapshots ∧
    List.lookup 102 retCacheAfter.snapshots ≠ none := by decide

/-- C1 amended: with MaxSnapshots = 2, after Update for blocks 1, 2, 3, 4
the history contains exactly the snapshots for hashes 102, 103 and 104 (at
most MaxSnapshots + 1 snapshots), and block 1's snapshot is no longer
reachable by hash lookup. -/
theorem retention_window_after_four_updates :
    retCacheAfter.snapshots.map Prod.fst = [102, 103, 104] ∧
    retCacheAfter.snapshots.length ≤ retCacheAfter.config.maxSnapshots + 1 ∧
    List.lookup 101 retCacheAfter.snapshots = none ∧
    List.lookup 103 retCacheAfter.snapshots ≠ none ∧
    List.lookup 104 retCacheAfter.snapshots ≠ none := by decide

/-- C2 counterexample: in the reorg scenario with H2b.parent = H1, the
ancestor scan does not return H1's hash (no hash is shared by the two
chains), and H2b is absent from the history after HandleReorg returns, so
the claimed outcome fails on the code. -/
theorem reorg_known_ancestor_claim_fails :
    findCommonHash [reorgH2a, reorgH3a] [reorgH2b, reorgH3b] ≠ reorgH1.hash ∧
    List.lookup reorgH2b.hash reorgFinal.snapshots = none := by decide

/-- C2 amended: the ancestor scan compares only hashes occurring in both
chains, so it finds no common ancestor (zero hash, absent from history);
HandleReorg therefore rebuilds by calling Update with H3b, the current
snapshot becomes H3b's snapshot, H1 and H3b are in history while H2b is not,
the call returns without error, and the reorgs counter is incremented by
exactly 1. -/
theorem reorg_parent_link_falls_back_to_rebuild :
    findCommonHash [reorgH2a, reorgH3a] [reorgH2b, reorgH3b] = 0 ∧
    List.lookup 0 reorgCacheSetup.snapshots = none ∧
    reorgResult.map Prod.snd = some none ∧
    reorgFinal.current.blockHash = reorgH3b.hash ∧
    reorgFinal.current.blockNumber = reorgH3b.number ∧
    List.lookup reorgH1.hash reorgFinal.snapshots ≠ none ∧
    List.lookup reorgH3a.hash reorgFinal.snapshots ≠ none ∧
    List.lookup reorgH3b.hash reorgFinal.snapshots ≠ none ∧
    reorgFinal.stats.reorgCount = reorgCacheSetup.stats.reorgCount + 1 := by decide

end HotCache
